import Mathlib

/-!
Verification of the document-conversion and collation pipeline of
DokuReader (src/DokuReader.py).

The embedding covers the pipeline code only, as a set of executable
definitions:

- file system: an association list from path strings to file data, where a
  file is either a finished PDF (a list of pages) or a truncated artifact
  left behind by an interrupted write;
- page geometry of the plain-text renderer (DokuReader._txt_to_pdf,
  lines 681-714): reportlab works in printer points; every length that
  function uses (A4 = 210x297 mm with mm = 72/25.4 pt, margin = 2 cm with
  cm = 72/2.54 pt, line height 12 pt) is an integer multiple of 1/127 pt,
  so the whole layout is carried out here in exact integer units of
  1/127 pt (mm = 360 units, cm = 3600 units, 12 pt = 1524 units).  The
  float rounding of the original is at least 3 pt away from every
  comparison threshold the code uses, so exact arithmetic is faithful;
- the renderer shells (_txt_to_pdf, _image_to_pdf, _office_to_pdf) with
  the availability of external tools and the success or failure of each
  external call supplied by environment records, mirroring each catch,
  fallback and unlink of the source;
- the job worker (_create_collection_pdf_worker, lines 604-668) and the
  merger (_merge_pdfs, lines 780-799).

External effects that the source delegates to libraries (what reportlab
draws inside a page, whether pypdf can parse a particular file, whether
soffice happens to produce its output file) are oracles in the
environment records; everything the Python code itself decides is
computed.
-/

namespace DokuReader

/-- A rendered page: the draw calls issued on it, each a vertical position
(in units of 1/127 pt) together with the drawn text.  Pages of files the
pipeline did not render itself (source PDFs, engine output) are arbitrary
values of this type supplied by the environment. -/
abbrev Page := List (Int × String)

/-- Contents of a file on disk: either a complete PDF with its pages, or a
truncated artifact left by a write that did not finish. -/
inductive FileData where
  | pdf (pages : List Page)
  | truncated
deriving DecidableEq

/-- File system: association list from paths to contents; the most recent
entry for a path shadows older ones. -/
abbrev FS := List (String × FileData)

/-- Look up a path (first matching entry wins). -/
def FS.get : FS → String → Option FileData
  | [], _ => none
  | (q, d) :: rest, p => if q = p then some d else FS.get rest p

/-- Write a file, overwriting whatever was at that path. -/
def FS.set (fs : FS) (p : String) (d : FileData) : FS := (p, d) :: fs

/-- Delete a file (Path.unlink): drop every entry recorded for the path. -/
def FS.erase : FS → String → FS
  | [], _ => []
  | (q, d) :: rest, p => if q = p then FS.erase rest p else (q, d) :: FS.erase rest p

theorem FS.get_set_self (fs : FS) (p : String) (d : FileData) :
    (fs.set p d).get p = some d := by
  simp [FS.set, FS.get]

theorem FS.get_set_ne (fs : FS) (p q : String) (d : FileData) (h : p ≠ q) :
    (fs.set p d).get q = fs.get q := by
  simp [FS.set, FS.get, h]

theorem FS.get_erase_self (fs : FS) (p : String) : (fs.erase p).get p = none := by
  induction fs with
  | nil => rfl
  | cons hd tl ih =>
    obtain ⟨q, d⟩ := hd
    by_cases h : q = p
    · simpa [FS.erase, h] using ih
    · simpa [FS.erase, h, FS.get] using ih

theorem FS.get_erase_ne (fs : FS) (p q : String) (h : p ≠ q) :
    (fs.erase p).get q = fs.get q := by
  induction fs with
  | nil => rfl
  | cons hd tl ih =>
    obtain ⟨r, d⟩ := hd
    by_cases hp : r = p
    · subst hp
      simpa [FS.erase, FS.get, h] using ih
    · simp [FS.erase, hp, FS.get, ih]

/-! ## Geometry of _txt_to_pdf, in units of 1/127 pt

reportlab: inch = 72 pt, cm = inch/2.54, mm = cm/10, A4 = (210 mm, 297 mm).
All exact: 1 mm = 360/127 pt, 1 cm = 3600/127 pt. -/

/-- One printer point, in units of 1/127 pt. -/
def ptU : Int := 127

/-- One millimetre (72/25.4 pt). -/
def mmU : Int := 360

/-- One centimetre (72/2.54 pt). -/
def cmU : Int := 3600

/-- A4 page width, 210 mm (reportlab A4[0]). -/
def pageWidthU : Int := 210 * mmU

/-- A4 page height, 297 mm (reportlab A4[1]). -/
def pageHeightU : Int := 297 * mmU

/-- The 2 cm margin of _txt_to_pdf and _image_to_pdf. -/
def marginU : Int := 2 * cmU

/-- The 12 pt line height of _txt_to_pdf. -/
def lineHeightU : Int := 12 * ptU

/-- The initial and after-page-break cursor position: height - margin. -/
def pageTopU : Int := pageHeightU - marginU

/-- Character budget per drawn line: int((width - 2*margin) / 6) in points,
computed exactly (the operands are positive, so Python int() is a floor).
Evaluates to 80. -/
def maxChars : Nat := ((pageWidthU - 2 * marginU) / (6 * ptU)).toNat

theorem maxChars_eq : maxChars = 80 := by decide

/-- Greedy wrapping of one source line into chunks of maxChars characters,
mirroring the inner while-loop of _txt_to_pdf (part = line[:max_chars];
line = line[len(part):]).  The Nat argument is recursion fuel; wrapLine
supplies the length of the string, which is ample because every round
consumes maxChars = 80 > 0 characters. -/
def wrapChunks : Nat → List Char → List (List Char)
  | _, [] => []
  | 0, cs => [cs]
  | n + 1, cs => cs.take maxChars :: wrapChunks n (cs.drop maxChars)

/-- All chunks drawn for one source line (empty for an empty line: the
while-loop body is never entered). -/
def wrapLine (s : String) : List String :=
  (wrapChunks s.length s.data).map List.asString

/-- All chunks drawn for a whole file, in order.  The embedding receives
the file as its list of newline-stripped lines (the source iterates the
file and rstrips each line). -/
def txtParts (lines : List String) : List String := lines.flatMap wrapLine

/-- State of the reportlab canvas during _txt_to_pdf: the cursor height,
the draws on the current (not yet shown) page, and the pages already
emitted by showPage. -/
structure Canv where
  y : Int
  cur : Page
  done : List Page
deriving DecidableEq

/-- One iteration of the while-loop body: draw the chunk at the cursor,
move the cursor down one line height, and start a new page if the cursor
crossed the bottom margin (if y < margin: showPage; y = height - margin). -/
def drawPart (c : Canv) (s : String) : Canv :=
  let c1 : Canv := ⟨c.y - lineHeightU, c.cur ++ [(c.y, s)], c.done⟩
  if c1.y < marginU then ⟨pageTopU, [], c1.done ++ [c1.cur]⟩ else c1

/-- Canvas after all lines of the file have been processed. -/
def txtCanvFinal (lines : List String) : Canv :=
  (txtParts lines).foldl drawPart ⟨pageTopU, [], []⟩

/-- The pages of the produced PDF: the pages shown during the loop plus
the final explicit showPage (which emits the current page even when it is
blank; the subsequent save() adds nothing more). -/
def txtPdfPages (lines : List String) : List Page :=
  (txtCanvFinal lines).done ++ [(txtCanvFinal lines).cur]

/-! ## Source paths and file classification -/

/-- A source path, split the way pathlib splits it: the directory part
(including its trailing separator), the stem, and the suffix.  The flat
path string is dir ++ stem ++ ext. -/
structure SrcPath where
  dir : String
  stem : String
  ext : String
deriving DecidableEq

/-- The flat path string of a source file. -/
def SrcPath.path (s : SrcPath) : String := s.dir ++ s.stem ++ s.ext

/-- ASCII lowering of a string, character by character (str.lower() on the
suffixes the pipeline classifies). -/
def lowerStr (s : String) : String := (s.data.map Char.toLower).asString

/-- The image suffix set IMAGE_EXTS of DokuReader.py line 106. -/
def IMAGE_EXTS : List String := [".jpg", ".jpeg", ".gif", ".png"]

/-- The office suffix set WORD_EXTS of DokuReader.py line 107. -/
def WORD_EXTS : List String := [".doc", ".docx", ".odt", ".rtf"]

/-- The text suffix set TXT_EXTS of DokuReader.py line 108. -/
def TXT_EXTS : List String := [".txt"]

/-- The pdf suffix set PDF_EXTS of DokuReader.py line 109. -/
def PDF_EXTS : List String := [".pdf"]

/-! ## Renderer shells

Each converter writes into the shared temporary directory; the produced
file name depends only on the source stem plus a per-category suffix
(_txt_to_pdf line 684, _image_to_pdf line 717, _office_to_pdf lines
757 and 769). -/

/-- Temporary output path of _txt_to_pdf: tmpdir / (stem + "_txt.pdf").
The tmpdir string is taken to carry its trailing separator. -/
def tmpNameTxt (tmpdir : String) (src : SrcPath) : String :=
  tmpdir ++ src.stem ++ "_txt.pdf"

/-- Temporary output path of _image_to_pdf: tmpdir / (stem + "_img.pdf"). -/
def tmpNameImg (tmpdir : String) (src : SrcPath) : String :=
  tmpdir ++ src.stem ++ "_img.pdf"

/-- Output path of both office strategies: tmpdir / (stem + ".pdf"). -/
def tmpNameOffice (tmpdir : String) (src : SrcPath) : String :=
  tmpdir ++ src.stem ++ ".pdf"

/-- Environment of one _txt_to_pdf call: whether reportlab imported
(REPORTLAB_AVAILABLE), whether the canvas work raises, whether the failed
attempt left a file at the output path, and whether the cleanup unlink
itself succeeds (it is wrapped in its own try/except). -/
structure TxtEnv where
  reportlab : Bool
  fails : Bool
  leavesFile : Bool
  unlinkOk : Bool

/-- Model of DokuReader._txt_to_pdf (lines 681-714).  Returns the produced path or
none, plus the file system afterwards.  On success the written PDF holds
exactly the pages txtPdfPages computes from the file lines.  On an
exception the source deletes the output if it exists (lines 708-714);
that unlink is best effort. -/
def txt_to_pdf (env : TxtEnv) (src : SrcPath) (tmpdir : String)
    (lines : List String) (fs : FS) : Option String × FS :=
  if env.reportlab = false then (none, fs)
  else
    let out := tmpNameTxt tmpdir src
    if env.fails = false then (some out, fs.set out (.pdf (txtPdfPages lines)))
    else
      let fs1 := if env.leavesFile then fs.set out .truncated else fs
      let fs2 := if (fs1.get out).isSome && env.unlinkOk then fs1.erase out else fs1
      (none, fs2)

/-- Environment of one _image_to_pdf call: availability and outcome of the
reportlab attempt and of the Pillow fallback, the single page each would
produce, and whether a failing attempt left a file behind. -/
structure ImgEnv where
  reportlab : Bool
  rlFails : Bool
  rlLeavesFile : Bool
  rlPage : Page
  pil : Bool
  pilFails : Bool
  pilLeavesFile : Bool
  pilPage : Page

/-- Model of DokuReader._image_to_pdf (lines 716-746): reportlab first, Pillow as
fallback, both failures swallowed; no cleanup of a failed attempt
anywhere in the source. -/
def image_to_pdf (env : ImgEnv) (src : SrcPath) (tmpdir : String) (fs : FS) :
    Option String × FS :=
  let out := tmpNameImg tmpdir src
  let step1 : Option String × FS :=
    if env.reportlab then
      if env.rlFails = false then (some out, fs.set out (.pdf [env.rlPage]))
      else (none, if env.rlLeavesFile then fs.set out .truncated else fs)
    else (none, fs)
  match step1 with
  | (some p, fs1) => (some p, fs1)
  | (none, fs1) =>
    if env.pil then
      if env.pilFails = false then (some out, fs1.set out (.pdf [env.pilPage]))
      else (none, if env.pilLeavesFile then fs1.set out .truncated else fs1)
    else (none, fs1)

/-- Environment of one _office_to_pdf call: which candidate executables
shutil.which finds, whether each subprocess.run returns (with some exit
code) or raises (timeout), whether the engine produced the output file
during the call, the platform.system() string, and the behavior of the
Word COM sequence (whether it raises anywhere, and whether SaveAs wrote
the file before any such exception). -/
structure OfficeEnv where
  which : String → Bool
  runReturns : String → Option Int
  engineWrites : String → Bool
  enginePages : List Page
  os : String
  comRaises : Bool
  comWrites : Bool
  comPages : List Page

/-- The fixed candidate list of _office_to_pdf line 750. -/
def officeCands : List String := ["soffice", "libreoffice"]

/-- One iteration of the candidate loop (lines 750-761): if the executable
exists, run it (it may write the output file whether or not the call
returns); if the call returns, success is judged solely by the existence
of the expected file; if the call raises, the except swallows it and the
existence check is skipped. -/
def office_cand (env : OfficeEnv) (out : String) (acc : FS × Option String)
    (cand : String) : FS × Option String :=
  match acc with
  | (fs, some r) => (fs, some r)
  | (fs, none) =>
    if env.which cand then
      let fs1 := if env.engineWrites cand then fs.set out (.pdf env.enginePages) else fs
      match env.runReturns cand with
      | none => (fs1, none)
      | some _ => if (fs1.get out).isSome then (fs1, some out) else (fs1, none)
    else (fs, none)

/-- Model of DokuReader._office_to_pdf (lines 748-778): headless engine candidates
first, then the Word COM bridge, attempted only when
platform.system() == "Windows"; every failure path returns none. -/
def office_to_pdf (env : OfficeEnv) (src : SrcPath) (tmpdir : String) (fs : FS) :
    Option String × FS :=
  let out := tmpNameOffice tmpdir src
  match officeCands.foldl (office_cand env out) (fs, none) with
  | (fs1, some p) => (some p, fs1)
  | (fs1, none) =>
    if env.os = "Windows" then
      let fs2 := if env.comWrites then fs1.set out (.pdf env.comPages) else fs1
      if env.comRaises then (none, fs2)
      else if (fs2.get out).isSome then (some out, fs2) else (none, fs2)
    else (none, fs1)

/-! ## The collation worker and the merger -/

/-- Outcome recorded for one document in the log list (lines 630-655):
one log line per document. -/
inductive Outcome where
  | merged (pdfPath : String)
  | skipUnsupported
  | skipToolUnavailable
  | failed
deriving DecidableEq

/-- The merge-list entry an outcome contributes, if any. -/
def mergedPath : Outcome → Option String
  | .merged p => some p
  | _ => none

/-- Per-document conversion environment of one pipeline run: the contents
of each text source (as stripped lines), the behavior of each renderer
call, and whether the delegate call for the document raises (the loop
body is wrapped in try/except at lines 627-655; the shells themselves
swallow their errors, but pathlib operations and the interpreter can
still raise inside the delegate expression). -/
structure ConvEnv where
  raises : SrcPath → Bool
  txtEnv : SrcPath → TxtEnv
  lines : SrcPath → List String
  imgEnv : SrcPath → ImgEnv
  offEnv : SrcPath → OfficeEnv

/-- Shared shape of the three delegate branches (lines 631-651): a
returned path is appended to the merge list with an OK log line, a none
return appends only the skip log line. -/
def dispatch : Option String × FS → FS × Option String × Outcome
  | (some p, fs) => (fs, some p, .merged p)
  | (none, fs) => (fs, none, .skipToolUnavailable)

/-- The body of the per-document loop (lines 624-655): classify by
lowered suffix in the order PDF, TXT, IMAGE, WORD, unsupported; a raised
exception inside a delegate is caught and logged as the failure line for
this document. -/
def convStep (cenv : ConvEnv) (tmpdir : String) (fs : FS) (d : SrcPath) :
    FS × Option String × Outcome :=
  let ext := lowerStr d.ext
  if ext ∈ PDF_EXTS then (fs, some d.path, .merged d.path)
  else if ext ∈ TXT_EXTS then
    if cenv.raises d then (fs, none, .failed)
    else dispatch (txt_to_pdf (cenv.txtEnv d) d tmpdir (cenv.lines d) fs)
  else if ext ∈ IMAGE_EXTS then
    if cenv.raises d then (fs, none, .failed)
    else dispatch (image_to_pdf (cenv.imgEnv d) d tmpdir fs)
  else if ext ∈ WORD_EXTS then
    if cenv.raises d then (fs, none, .failed)
    else dispatch (office_to_pdf (cenv.offEnv d) d tmpdir fs)
  else (fs, none, .skipUnsupported)

/-- One step of the loop acting on the accumulated
(file system, pdf_parts, log) state. -/
def classifyStep (cenv : ConvEnv) (tmpdir : String)
    (acc : FS × List String × List Outcome) (d : SrcPath) :
    FS × List String × List Outcome :=
  let s := convStep cenv tmpdir acc.1 d
  (s.1, acc.2.1 ++ s.2.1.toList, acc.2.2 ++ [s.2.2])

/-- Recursive form of the document loop, equal to the foldl (used by the
proofs). -/
def runDocs (cenv : ConvEnv) (tmpdir : String) : List SrcPath → FS →
    FS × List String × List Outcome
  | [], fs => (fs, [], [])
  | d :: ds, fs =>
    let s := convStep cenv tmpdir fs d
    let r := runDocs cenv tmpdir ds s.1
    (r.1, s.2.1.toList ++ r.2.1, s.2.2 :: r.2.2)

/-- Environment of one _merge_pdfs call: whether a merger library was
importable (PdfMerger is not None), whether the PdfMerger() constructor
call succeeds, which individual inputs pypdf can parse and append, and
whether opening and writing the output file succeed. -/
structure MergeEnv where
  hasMerger : Bool
  ctorOk : Bool
  canAppend : String → Bool
  openOk : Bool
  writeOk : Bool

/-- Pages accumulated by the append loop of _merge_pdfs (lines 785-790):
inputs that are missing, truncated, or rejected by the parser are skipped
one by one; the rest contribute their pages in list order. -/
def appendedPages (canAppend : String → Bool) (fs : FS) (paths : List String) :
    List Page :=
  paths.flatMap fun p =>
    match fs.get p with
    | some (.pdf pgs) => if canAppend p then pgs else []
    | _ => []

/-- Model of DokuReader._merge_pdfs (lines 780-799).  The output file is opened
with mode "wb" only after the whole append loop: a failing write
therefore leaves a truncated file at the output path, while every earlier
failure leaves the file system untouched. -/
def merge_pdfs (menv : MergeEnv) (paths : List String) (outPath : String)
    (fs : FS) : Bool × FS :=
  if menv.hasMerger = false then (false, fs)
  else if menv.ctorOk = false then (false, fs)
  else if menv.openOk = false then (false, fs)
  else if menv.writeOk = false then (false, fs.set outPath .truncated)
  else (true, fs.set outPath (.pdf (appendedPages menv.canAppend fs paths)))

/-- Terminal result of one worker run, following the four distinct
status messages of _create_collection_pdf_worker. -/
inductive JobResult where
  | noInput
  | nothingToMerge
  | mergeFailed
  | success (outPath : String)
deriving DecidableEq

/-- Observable result of one run: the terminal message, whether the
temporary directory was ever created, the final file system, and the
pdf_parts and log lists. -/
structure RunOut where
  result : JobResult
  tmpdirCreated : Bool
  fs : FS
  parts : List String
  outcomes : List Outcome
deriving DecidableEq

/-- Model of DokuReader._create_collection_pdf_worker after filtering (lines
613-666): empty input returns before the temporary directory is made;
then the per-document loop; then NothingToMerge, or the merge with its
success or failure message. -/
def worker (cenv : ConvEnv) (menv : MergeEnv) (docs : List SrcPath)
    (tmpdir outPath : String) (fs0 : FS) : RunOut :=
  if docs.isEmpty then ⟨.noInput, false, fs0, [], []⟩
  else
    match docs.foldl (classifyStep cenv tmpdir) (fs0, [], []) with
    | (fs1, parts, outs) =>
      if parts.isEmpty then ⟨.nothingToMerge, true, fs1, parts, outs⟩
      else
        match merge_pdfs menv parts outPath fs1 with
        | (true, fs2) => ⟨.success outPath, true, fs2, parts, outs⟩
        | (false, fs2) => ⟨.mergeFailed, true, fs2, parts, outs⟩

/-! ## Predicates and auxiliary definitions used by the theorems -/

/-- Every draw on the page sits at or above the bottom margin. -/
def pageDrawsOk (pg : Page) : Prop := ∀ dr ∈ pg, marginU ≤ dr.1

/-- Invariant of the canvas after k chunks have been drawn: 61 chunks fit
on a page (the 61st draw pushes the cursor past the margin and triggers
the page break), the cursor height is determined by k mod 61, and no draw
ever happened below the margin. -/
structure CanvInv (k : Nat) (c : Canv) : Prop where
  hy : c.y = pageTopU - lineHeightU * ((k % 61 : Nat) : Int)
  hcur : c.cur.length = k % 61
  hdone : c.done.length = k / 61
  hcurM : pageDrawsOk c.cur
  hdoneM : ∀ pg ∈ c.done, pageDrawsOk pg

/-- Insertion of an outcome at a position of the log list (used to relate
a run to the run without the failing document). -/
def insertOutcome : Nat → Outcome → List Outcome → List Outcome
  | 0, o, os => o :: os
  | _ + 1, o, [] => [o]
  | n + 1, o, x :: os => x :: insertOutcome n o os

/-! ## Concrete instantiation data -/

/-- A conversion environment in which no delegate raises, every renderer
call succeeds, no office tool is found, and every text source is empty. -/
def cenvTriv : ConvEnv where
  raises := fun _ => false
  txtEnv := fun _ => ⟨true, false, false, true⟩
  lines := fun _ => []
  imgEnv := fun _ => ⟨true, false, false, [], true, false, false, []⟩
  offEnv := fun _ => ⟨fun _ => false, fun _ => none, fun _ => false, [], "Linux",
    false, false, []⟩

/-- Like cenvTriv, but the text contents distinguish the two collision
witnesses by their directory. -/
def cenvStem : ConvEnv where
  raises := fun _ => false
  txtEnv := fun _ => ⟨true, false, false, true⟩
  lines := fun d => if d.dir = "a/" then ["A"] else ["B"]
  imgEnv := fun _ => ⟨true, false, false, [], true, false, false, []⟩
  offEnv := fun _ => ⟨fun _ => false, fun _ => none, fun _ => false, [], "Linux",
    false, false, []⟩

/-- Like cenvTriv, but the delegate call raises on text documents. -/
def cenvRaise : ConvEnv where
  raises := fun d => d.ext == ".txt"
  txtEnv := fun _ => ⟨true, false, false, true⟩
  lines := fun _ => []
  imgEnv := fun _ => ⟨true, false, false, [], true, false, false, []⟩
  offEnv := fun _ => ⟨fun _ => false, fun _ => none, fun _ => false, [], "Linux",
    false, false, []⟩

/-- A fully working merge environment. -/
def menvAllOk : MergeEnv := ⟨true, true, fun _ => true, true, true⟩

/-- A merge environment whose final write raises. -/
def menvWriteFail : MergeEnv := ⟨true, true, fun _ => true, true, false⟩

/-- A merge environment in which every individual append is rejected. -/
def menvNoAppend : MergeEnv := ⟨true, true, fun _ => false, true, true⟩

/-- Concrete source files. -/
def docA : SrcPath := ⟨"", "a", ".pdf"⟩

def docB : SrcPath := ⟨"", "b", ".pdf"⟩

def docT1 : SrcPath := ⟨"a/", "doc", ".txt"⟩

def docT2 : SrcPath := ⟨"b/", "doc", ".txt"⟩

/-- Page content used by witnesses: one page tagged with the stem. -/
def pgW : SrcPath → List Page := fun d => [[(0, d.stem)]]

/-- A file system holding the two witness PDFs. -/
def fsW : FS := [("a.pdf", .pdf [[(0, "a")]]), ("b.pdf", .pdf [[(0, "b")]])]

/-- An image environment whose reportlab attempt fails and leaves a
partial file, with no Pillow fallback available. -/
def imgEnvFail : ImgEnv := ⟨true, true, true, [], false, false, false, []⟩

/-- An image environment with no tool available at all. -/
def imgEnvNoTools : ImgEnv := ⟨false, false, false, [], false, false, false, []⟩

/-- An office environment where soffice is found and writes the expected
file, but the call raises (timeout) so the existence check is skipped. -/
def offEnvTimeout : OfficeEnv :=
  ⟨fun c => c == "soffice", fun _ => none, fun c => c == "soffice",
    [[((0 : Int), "x")]], "Linux", false, false, []⟩

/-- An office environment where soffice is found, returns, and writes the
expected file. -/
def offEnvOk : OfficeEnv :=
  ⟨fun c => c == "soffice", fun _ => some 1, fun _ => true, [],
    "Linux", false, false, []⟩

/-! ## Lemmas: text pagination -/

theorem marginU_eq : marginU = 7200 := by decide

theorem lineHeightU_eq : lineHeightU = 1524 := by decide

theorem pageTopU_eq : pageTopU = 99720 := by decide

theorem printableU_eq : pageHeightU - 2 * marginU = 92520 := by decide

theorem drawPart_inv {k : Nat} {c : Canv} (h : CanvInv k c) (s : String) :
    CanvInv (k + 1) (drawPart c s) := by
  have hr : k % 61 ≤ 60 := by omega
  have hymargin : marginU ≤ c.y := by
    rw [h.hy, pageTopU_eq, lineHeightU_eq, marginU_eq]
    omega
  dsimp only [drawPart]
  by_cases hb : c.y - lineHeightU < marginU
  · have hr60 : k % 61 = 60 := by
      by_contra hne
      rw [h.hy, pageTopU_eq, lineHeightU_eq, marginU_eq] at hb
      omega
    rw [if_pos hb]
    refine ⟨?_, ?_, ?_, ?_, ?_⟩
    · have h0 : (k + 1) % 61 = 0 := by omega
      rw [h0]
      simp
    · have h0 : (k + 1) % 61 = 0 := by omega
      simp [h0]
    · have h1 : (k + 1) / 61 = k / 61 + 1 := by omega
      rw [h1]
      simp [h.hdone]
    · intro dr hdr
      simp at hdr
    · intro pg hpg
      rcases List.mem_append.1 hpg with hold | hnew
      · exact h.hdoneM pg hold
      · rcases List.mem_singleton.1 hnew with rfl
        intro dr hdr
        rcases List.mem_append.1 hdr with hcur | hlast
        · exact h.hcurM dr hcur
        · rcases List.mem_singleton.1 hlast with rfl
          exact hymargin
  · have hrlt : k % 61 ≤ 59 := by
      by_contra hge
      have h60 : k % 61 = 60 := by omega
      rw [h.hy, pageTopU_eq, lineHeightU_eq, marginU_eq, h60] at hb
      omega
    rw [if_neg hb]
    refine ⟨?_, ?_, ?_, ?_, h.hdoneM⟩
    · have h1 : (k + 1) % 61 = k % 61 + 1 := by omega
      rw [h.hy, h1]
      push_cast
      ring
    · have h1 : (k + 1) % 61 = k % 61 + 1 := by omega
      simp [h1, h.hcur]
    · have h1 : (k + 1) / 61 = k / 61 := by omega
      rw [h1]
      exact h.hdone
    · intro dr hdr
      rcases List.mem_append.1 hdr with hcur | hlast
      · exact h.hcurM dr hcur
      · rcases List.mem_singleton.1 hlast with rfl
        exact hymargin

theorem foldl_drawPart_inv (ps : List String) : ∀ {k : Nat} {c : Canv},
    CanvInv k c → CanvInv (k + ps.length) (ps.foldl drawPart c) := by
  induction ps with
  | nil =>
    intro k c h
    simpa using h
  | cons p ps ih =>
    intro k c h
    have h2 := ih (drawPart_inv h p)
    have he : k + (p :: ps).length = (k + 1) + ps.length := by
      simp
      omega
    rw [List.foldl_cons, he]
    exact h2

theorem canvInv_init : CanvInv 0 ⟨pageTopU, [], []⟩ := by
  refine ⟨by simp, rfl, rfl, ?_, ?_⟩
  · intro dr hdr
    simp at hdr
  · intro pg hpg
    simp at hpg

theorem txtCanv_inv (lines : List String) :
    CanvInv (txtParts lines).length (txtCanvFinal lines) := by
  have h := foldl_drawPart_inv (txtParts lines) canvInv_init
  simpa [txtCanvFinal] using h

theorem txtPdfPages_length (lines : List String) :
    (txtPdfPages lines).length = (txtCanvFinal lines).done.length + 1 := by
  simp [txtPdfPages]

/-! ## Lemmas: the document loop -/

theorem foldl_eq_runDocs (cenv : ConvEnv) (t : String) :
    ∀ (docs : List SrcPath) (fs : FS) (ps : List String) (os : List Outcome),
    docs.foldl (classifyStep cenv t) (fs, ps, os) =
      ((runDocs cenv t docs fs).1,
       ps ++ (runDocs cenv t docs fs).2.1,
       os ++ (runDocs cenv t docs fs).2.2) := by
  intro docs
  induction docs with
  | nil =>
    intro fs ps os
    simp [runDocs]
  | cons d ds ih =>
    intro fs ps os
    rw [List.foldl_cons]
    show ds.foldl (classifyStep cenv t) (classifyStep cenv t (fs, ps, os) d) = _
    rw [show classifyStep cenv t (fs, ps, os) d =
      ((convStep cenv t fs d).1,
       ps ++ (convStep cenv t fs d).2.1.toList,
       os ++ [(convStep cenv t fs d).2.2]) from rfl]
    rw [ih]
    simp [runDocs]

theorem dispatch_lockstep (r : Option String × FS) :
    (dispatch r).2.1 = mergedPath (dispatch r).2.2 := by
  rcases r with ⟨o, fs⟩
  cases o <;> rfl

theorem dispatch_fs (r : Option String × FS) : (dispatch r).1 = r.2 := by
  rcases r with ⟨o, fs⟩
  cases o <;> rfl

theorem convStep_lockstep (cenv : ConvEnv) (t : String) (fs : FS) (d : SrcPath) :
    (convStep cenv t fs d).2.1 = mergedPath (convStep cenv t fs d).2.2 := by
  unfold convStep
  dsimp only
  repeat' split
  all_goals first
    | rfl
    | exact dispatch_lockstep _

theorem runDocs_parts (cenv : ConvEnv) (t : String) :
    ∀ (docs : List SrcPath) (fs : FS),
    (runDocs cenv t docs fs).2.1 =
      ((runDocs cenv t docs fs).2.2).filterMap mergedPath := by
  intro docs
  induction docs with
  | nil => intro fs; rfl
  | cons d ds ih =>
    intro fs
    have hl := convStep_lockstep cenv t fs d
    simp only [runDocs, List.filterMap_cons, ← hl]
    cases hs : (convStep cenv t fs d).2.1 with
    | none => simpa [hs] using ih _
    | some p => simpa [hs] using ih _

theorem runDocs_outcomes_length (cenv : ConvEnv) (t : String) :
    ∀ (docs : List SrcPath) (fs : FS),
    ((runDocs cenv t docs fs).2.2).length = docs.length := by
  intro docs
  induction docs with
  | nil => intro fs; rfl
  | cons d ds ih => intro fs; simp [runDocs, ih]

theorem convStep_pdf (cenv : ConvEnv) (t : String) (fs : FS) (d : SrcPath)
    (h : lowerStr d.ext ∈ PDF_EXTS) :
    convStep cenv t fs d = (fs, some d.path, .merged d.path) := by
  simp only [convStep]
  rw [if_pos h]

theorem runDocs_all_pdf (cenv : ConvEnv) (t : String) :
    ∀ (docs : List SrcPath) (fs : FS),
    (∀ d ∈ docs, lowerStr d.ext ∈ PDF_EXTS) →
    runDocs cenv t docs fs =
      (fs, docs.map SrcPath.path, docs.map (fun d => Outcome.merged d.path)) := by
  intro docs
  induction docs with
  | nil => intro fs _; rfl
  | cons d ds ih =>
    intro fs h
    simp only [runDocs, convStep_pdf cenv t fs d (h d (by simp))]
    rw [ih fs (fun x hx => h x (by simp [hx]))]
    simp

theorem convStep_raise (cenv : ConvEnv) (t : String) (fs : FS) (d : SrcPath)
    (hr : cenv.raises d = true)
    (hcat : lowerStr d.ext ∈ TXT_EXTS ∨ lowerStr d.ext ∈ IMAGE_EXTS ∨
      lowerStr d.ext ∈ WORD_EXTS) :
    convStep cenv t fs d = (fs, none, .failed) := by
  simp only [convStep]
  rcases hcat with h | h | h
  · simp only [TXT_EXTS, List.mem_singleton] at h
    rw [h]
    simp [PDF_EXTS, TXT_EXTS, hr]
  · simp only [IMAGE_EXTS, List.mem_cons, List.not_mem_nil, or_false] at h
    rcases h with h | h | h | h <;> rw [h] <;>
      simp [PDF_EXTS, TXT_EXTS, IMAGE_EXTS, hr]
  · simp only [WORD_EXTS, List.mem_cons, List.not_mem_nil, or_false] at h
    rcases h with h | h | h | h <;> rw [h] <;>
      simp [PDF_EXTS, TXT_EXTS, IMAGE_EXTS, WORD_EXTS, hr]

theorem insertOutcome_get (o : Outcome) :
    ∀ (i : Nat) (os : List Outcome), i ≤ os.length →
    (insertOutcome i o os)[i]? = some o := by
  intro i
  induction i with
  | zero => intro os _; simp [insertOutcome]
  | succ n ih =>
    intro os h
    cases os with
    | nil => simp at h
    | cons x os => simpa [insertOutcome] using ih os (by simpa using h)

theorem runDocs_erase (cenv : ConvEnv) (t : String) :
    ∀ (docs : List SrcPath) (i : Nat) (d : SrcPath) (fs : FS),
    docs[i]? = some d → cenv.raises d = true →
    (lowerStr d.ext ∈ TXT_EXTS ∨ lowerStr d.ext ∈ IMAGE_EXTS ∨
      lowerStr d.ext ∈ WORD_EXTS) →
    (runDocs cenv t docs fs).1 = (runDocs cenv t (docs.eraseIdx i) fs).1
    ∧ (runDocs cenv t docs fs).2.1 = (runDocs cenv t (docs.eraseIdx i) fs).2.1
    ∧ (runDocs cenv t docs fs).2.2 =
        insertOutcome i .failed (runDocs cenv t (docs.eraseIdx i) fs).2.2 := by
  intro docs
  induction docs with
  | nil => intro i d fs h; simp at h
  | cons d0 ds ih =>
    intro i d fs hget hr hcat
    cases i with
    | zero =>
      simp only [List.getElem?_cons_zero, Option.some.injEq] at hget
      subst hget
      simp [runDocs, convStep_raise cenv t fs d0 hr hcat, List.eraseIdx,
        insertOutcome]
    | succ n =>
      simp only [List.getElem?_cons_succ] at hget
      have h3 := ih n d ((convStep cenv t fs d0).1) hget hr hcat
      simp [runDocs, List.eraseIdx, insertOutcome, h3.1, h3.2.1, h3.2.2]

/-! ## Lemmas: writes stay inside the temporary directory -/

theorem txt_to_pdf_get_ne (env : TxtEnv) (d : SrcPath) (t : String)
    (lines : List String) (fs : FS) (q : String) (h : tmpNameTxt t d ≠ q) :
    ((txt_to_pdf env d t lines fs).2).get q = fs.get q := by
  have hs : ∀ (fs1 : FS) (dd : FileData),
      (fs1.set (tmpNameTxt t d) dd).get q = fs1.get q :=
    fun fs1 dd => FS.get_set_ne fs1 _ q dd h
  have he : ∀ fs1 : FS, (fs1.erase (tmpNameTxt t d)).get q = fs1.get q :=
    fun fs1 => FS.get_erase_ne fs1 _ q h
  unfold txt_to_pdf
  dsimp only
  split
  · rfl
  · split
    · exact hs fs _
    · split <;> split <;> simp [hs, he]

theorem image_to_pdf_get_ne (env : ImgEnv) (d : SrcPath) (t : String)
    (fs : FS) (q : String) (h : tmpNameImg t d ≠ q) :
    ((image_to_pdf env d t fs).2).get q = fs.get q := by
  have hs : ∀ (fs1 : FS) (dd : FileData),
      (fs1.set (tmpNameImg t d) dd).get q = fs1.get q :=
    fun fs1 dd => FS.get_set_ne fs1 _ q dd h
  rcases env with ⟨rl, rlF, rlL, rlP, pl, plF, plL, plP⟩
  unfold image_to_pdf
  cases rl <;> cases rlF <;> cases rlL <;> cases pl <;> cases plF <;>
    cases plL <;> simp [hs]

theorem office_cand_fold_get_ne (env : OfficeEnv) (out q : String)
    (h : out ≠ q) :
    ∀ (cands : List String) (acc : FS × Option String),
    (((cands.foldl (office_cand env out) acc)).1).get q = (acc.1).get q := by
  have hs : ∀ (fs1 : FS) (dd : FileData),
      (fs1.set out dd).get q = fs1.get q :=
    fun fs1 dd => FS.get_set_ne fs1 _ q dd h
  intro cands
  induction cands with
  | nil => intro acc; rfl
  | cons c cs ih =>
    intro acc
    rw [List.foldl_cons, ih]
    rcases acc with ⟨fs, r⟩
    cases r with
    | some p => rfl
    | none =>
      unfold office_cand
      dsimp only
      split
      · repeat' split
        all_goals first | rfl | simp [hs]
      · rfl

theorem office_to_pdf_get_ne (env : OfficeEnv) (d : SrcPath) (t : String)
    (fs : FS) (q : String) (h : tmpNameOffice t d ≠ q) :
    ((office_to_pdf env d t fs).2).get q = fs.get q := by
  have hs : ∀ (fs1 : FS) (dd : FileData),
      (fs1.set (tmpNameOffice t d) dd).get q = fs1.get q :=
    fun fs1 dd => FS.get_set_ne fs1 _ q dd h
  have hfold := office_cand_fold_get_ne env (tmpNameOffice t d) q h officeCands
    (fs, none)
  unfold office_to_pdf
  dsimp only
  split
  case _ fs1 p heq =>
    rw [show fs1 = (officeCands.foldl (office_cand env (tmpNameOffice t d))
      (fs, none)).1 from by rw [heq]]
    exact hfold
  case _ fs1 heq =>
    have hfs1 : fs1 = (officeCands.foldl (office_cand env (tmpNameOffice t d))
        (fs, none)).1 := by rw [heq]
    subst hfs1
    split
    · repeat' split
      all_goals first | exact hfold | simp [hs, hfold]
    · exact hfold

theorem convStep_get_outside (cenv : ConvEnv) (t : String) (fs : FS)
    (d : SrcPath) (q : String) (hq : ∀ s : String, t ++ s ≠ q) :
    ((convStep cenv t fs d).1).get q = fs.get q := by
  have htxt : tmpNameTxt t d ≠ q := by
    have h1 := hq (d.stem ++ "_txt.pdf")
    rwa [← String.append_assoc] at h1
  have himg : tmpNameImg t d ≠ q := by
    have h1 := hq (d.stem ++ "_img.pdf")
    rwa [← String.append_assoc] at h1
  have hoff : tmpNameOffice t d ≠ q := by
    have h1 := hq (d.stem ++ ".pdf")
    rwa [← String.append_assoc] at h1
  unfold convStep
  dsimp only
  repeat' split
  all_goals first
    | rfl
    | (rw [dispatch_fs]; exact txt_to_pdf_get_ne _ _ _ _ _ _ htxt)
    | (rw [dispatch_fs]; exact image_to_pdf_get_ne _ _ _ _ _ himg)
    | (rw [dispatch_fs]; exact office_to_pdf_get_ne _ _ _ _ _ hoff)

theorem runDocs_get_outside (cenv : ConvEnv) (t : String) (q : String)
    (hq : ∀ s : String, t ++ s ≠ q) :
    ∀ (docs : List SrcPath) (fs : FS),
    ((runDocs cenv t docs fs).1).get q = fs.get q := by
  intro docs
  induction docs with
  | nil => intro fs; rfl
  | cons d ds ih =>
    intro fs
    simp only [runDocs]
    rw [ih, convStep_get_outside cenv t fs d q hq]

/-! ## Lemmas: the merger -/

theorem appendedPages_none (canAppend : String → Bool) (fs : FS)
    (paths : List String) (hfail : ∀ p ∈ paths, canAppend p = false) :
    appendedPages canAppend fs paths = [] := by
  induction paths with
  | nil => rfl
  | cons p ps ih =>
    simp only [appendedPages, List.flatMap_cons] at ih ⊢
    rw [ih (fun x hx => hfail x (by simp [hx]))]
    rcases hg : fs.get p with _ | dd
    · simp
    · cases dd with
      | pdf pgs => simp [hfail p (by simp)]
      | truncated => simp

theorem appendedPages_map_path (canAppend : String → Bool) (fs : FS)
    (pg : SrcPath → List Page) :
    ∀ docs : List SrcPath,
    (∀ d ∈ docs, fs.get d.path = some (.pdf (pg d))) →
    (∀ d ∈ docs, canAppend d.path = true) →
    appendedPages canAppend fs (docs.map SrcPath.path) = docs.flatMap pg := by
  intro docs
  induction docs with
  | nil => intro _ _; rfl
  | cons d ds ih =>
    intro hfs happ
    simp only [List.map_cons, appendedPages, List.flatMap_cons] at ih ⊢
    rw [hfs d (by simp), happ d (by simp),
      ih (fun x hx => hfs x (by simp [hx])) (fun x hx => happ x (by simp [hx]))]
    simp

/-! ## Lemmas: the worker -/

theorem worker_eq (cenv : ConvEnv) (menv : MergeEnv) (docs : List SrcPath)
    (t o : String) (fs0 : FS) (h : docs ≠ []) :
    worker cenv menv docs t o fs0 =
      (if (runDocs cenv t docs fs0).2.1.isEmpty then
        ⟨.nothingToMerge, true, (runDocs cenv t docs fs0).1,
          (runDocs cenv t docs fs0).2.1, (runDocs cenv t docs fs0).2.2⟩
      else
        match merge_pdfs menv (runDocs cenv t docs fs0).2.1 o
            (runDocs cenv t docs fs0).1 with
        | (true, fs2) => ⟨.success o, true, fs2, (runDocs cenv t docs fs0).2.1,
            (runDocs cenv t docs fs0).2.2⟩
        | (false, fs2) => ⟨.mergeFailed, true, fs2,
            (runDocs cenv t docs fs0).2.1, (runDocs cenv t docs fs0).2.2⟩) := by
  unfold worker
  rw [if_neg (by simpa [List.isEmpty_iff] using h)]
  rw [foldl_eq_runDocs cenv t docs fs0 [] []]
  simp only [List.nil_append]

theorem worker_fields (cenv : ConvEnv) (menv : MergeEnv) (docs : List SrcPath)
    (t o : String) (fs0 : FS) :
    (worker cenv menv docs t o fs0).parts = (runDocs cenv t docs fs0).2.1
    ∧ (worker cenv menv docs t o fs0).outcomes = (runDocs cenv t docs fs0).2.2 := by
  by_cases h : docs = []
  · subst h
    exact ⟨rfl, rfl⟩
  · rw [worker_eq cenv menv docs t o fs0 h]
    split
    · exact ⟨rfl, rfl⟩
    · split <;> exact ⟨rfl, rfl⟩

theorem txt_to_pdf_ok (env : TxtEnv) (d : SrcPath) (t : String)
    (lines : List String) (fs : FS) (h1 : env.reportlab = true)
    (h2 : env.fails = false) :
    txt_to_pdf env d t lines fs =
      (some (tmpNameTxt t d), fs.set (tmpNameTxt t d) (.pdf (txtPdfPages lines))) := by
  unfold txt_to_pdf
  rw [h1, h2]
  simp

theorem lowerStr_txt : lowerStr ".txt" = ".txt" := by decide

theorem convStep_txt_ok (cenv : ConvEnv) (t : String) (fs : FS) (d : SrcPath)
    (he : d.ext = ".txt") (hr : cenv.raises d = false)
    (ha : (cenv.txtEnv d).reportlab = true) (hf : (cenv.txtEnv d).fails = false) :
    convStep cenv t fs d =
      (fs.set (tmpNameTxt t d) (.pdf (txtPdfPages (cenv.lines d))),
       some (tmpNameTxt t d), .merged (tmpNameTxt t d)) := by
  simp only [convStep]
  rw [he, lowerStr_txt]
  rw [if_neg (by decide), if_pos (by decide), hr]
  rw [txt_to_pdf_ok _ _ _ _ _ ha hf]
  simp [dispatch]

/-! ## The claims -/

/-- Claim C1, counterexample.  With a working merge library whose final
write into the already-opened output file raises, the job ends in
MergeFailed, yet the file that previously existed at the output path has
been truncated by the "wb" open of _merge_pdfs line 791: on this
non-success result the output path is not left untouched. -/
theorem merge_output_untouched_cex :
    (worker cenvTriv menvWriteFail [docA] "/tmp/" "out"
        [("out", .pdf [[]])]).result = .mergeFailed
    ∧ ((worker cenvTriv menvWriteFail [docA] "/tmp/" "out"
        [("out", .pdf [[]])]).fs).get "out" = some .truncated
    ∧ FS.get [("out", .pdf [[]])] "out" = some (.pdf [[]]) := by decide

/-- Claim C1 (amended): the merge writes the output file only once, after
the whole append loop, and the written content is a function of the full
input list; on NoInput and NothingToMerge the output path is untouched,
and a merge failure leaves the output path untouched unless the failure
happened in the final write to the already-opened output file, in which
case a truncated file is left at the output path. -/
theorem merge_output_write_discipline (cenv : ConvEnv) (menv : MergeEnv)
    (docs : List SrcPath) (t o : String) (fs0 : FS)
    (hsep : ∀ s : String, t ++ s ≠ o) :
    (∀ (paths : List String) (fs : FS),
      merge_pdfs menv paths o fs =
        (true, fs.set o (.pdf (appendedPages menv.canAppend fs paths)))
      ∨ (merge_pdfs menv paths o fs).1 = false)
    ∧ (∀ (paths : List String) (fs : FS),
        (menv.hasMerger = false ∨ menv.ctorOk = false ∨ menv.openOk = false) →
        merge_pdfs menv paths o fs = (false, fs))
    ∧ (∀ (paths : List String) (fs : FS),
        menv.hasMerger = true → menv.ctorOk = true → menv.openOk = true →
        menv.writeOk = false →
        merge_pdfs menv paths o fs = (false, fs.set o .truncated))
    ∧ ((worker cenv menv docs t o fs0).result = .noInput ∨
        (worker cenv menv docs t o fs0).result = .nothingToMerge →
        ((worker cenv menv docs t o fs0).fs).get o = fs0.get o) := by
  refine ⟨?_, ?_, ?_, ?_⟩
  · intro paths fs
    unfold merge_pdfs
    split_ifs <;> simp
  · intro paths fs hd
    unfold merge_pdfs
    split_ifs <;> first | rfl | simp_all
  · intro paths fs h1 h2 h3 h4
    unfold merge_pdfs
    split_ifs <;> simp_all
  · intro hres
    by_cases hd : docs = []
    · subst hd
      rfl
    · rw [worker_eq cenv menv docs t o fs0 hd] at hres ⊢
      by_cases hp : (runDocs cenv t docs fs0).2.1.isEmpty
      · rw [if_pos hp] at hres ⊢
        exact runDocs_get_outside cenv t o hsep docs fs0
      · rw [if_neg hp] at hres ⊢
        rcases hm : merge_pdfs menv (runDocs cenv t docs fs0).2.1 o
            (runDocs cenv t docs fs0).1 with ⟨ok, fs2⟩
        rw [hm] at hres
        cases ok <;> simp at hres

/-- Claim C1, witness for the amended theorem at a concrete instance. -/
theorem merge_output_write_discipline_witness :
    (∀ (paths : List String) (fs : FS),
      merge_pdfs menvAllOk paths "out" fs =
        (true, fs.set "out" (.pdf (appendedPages menvAllOk.canAppend fs paths)))
      ∨ (merge_pdfs menvAllOk paths "out" fs).1 = false)
    ∧ (∀ (paths : List String) (fs : FS),
        (menvAllOk.hasMerger = false ∨ menvAllOk.ctorOk = false ∨
          menvAllOk.openOk = false) →
        merge_pdfs menvAllOk paths "out" fs = (false, fs))
    ∧ (∀ (paths : List String) (fs : FS),
        menvAllOk.hasMerger = true → menvAllOk.ctorOk = true →
        menvAllOk.openOk = true → menvAllOk.writeOk = false →
        merge_pdfs menvAllOk paths "out" fs = (false, fs.set "out" .truncated))
    ∧ ((worker cenvTriv menvAllOk [] "/tmp/" "out" []).result = .noInput ∨
        (worker cenvTriv menvAllOk [] "/tmp/" "out" []).result = .nothingToMerge →
        ((worker cenvTriv menvAllOk [] "/tmp/" "out" []).fs).get "out" =
          FS.get [] "out") :=
  merge_output_write_discipline cenvTriv menvAllOk [] "/tmp/" "out" []
    (by
      intro s hcontra
      have hl := congrArg String.length hcontra
      rw [String.length_append] at hl
      have h5 : "/tmp/".length = 5 := rfl
      have h3 : "out".length = 3 := rfl
      omega)

/-- Claim C2: the pdf_parts list handed to the merger is exactly, in
order, the Merged entries of the outcome log; and for a non-empty input
list consisting solely of PDFs every document is Merged and the merged
output is the concatenation of the inputs' pages in input order. -/
theorem merge_preserves_input_order (cenv : ConvEnv) (menv : MergeEnv)
    (docs : List SrcPath) (t o : String) (fs0 : FS) (pg : SrcPath → List Page)
    (hne : docs ≠ [])
    (hpdf : ∀ d ∈ docs, lowerStr d.ext ∈ PDF_EXTS)
    (hfs : ∀ d ∈ docs, fs0.get d.path = some (.pdf (pg d)))
    (hm : menv.hasMerger = true) (hc : menv.ctorOk = true)
    (hop : menv.openOk = true) (hw : menv.writeOk = true)
    (happ : ∀ d ∈ docs, menv.canAppend d.path = true) :
    (∀ (docs2 : List SrcPath) (fs2 : FS),
      (worker cenv menv docs2 t o fs2).parts =
        ((worker cenv menv docs2 t o fs2).outcomes).filterMap mergedPath)
    ∧ (worker cenv menv docs t o fs0).outcomes =
        docs.map (fun d => Outcome.merged d.path)
    ∧ (worker cenv menv docs t o fs0).result = .success o
    ∧ ((worker cenv menv docs t o fs0).fs).get o =
        some (.pdf (docs.flatMap pg)) := by
  have hrun := runDocs_all_pdf cenv t docs fs0 hpdf
  have hparts : (runDocs cenv t docs fs0).2.1 = docs.map SrcPath.path := by
    rw [hrun]
  have houts : (runDocs cenv t docs fs0).2.2 =
      docs.map (fun d => Outcome.merged d.path) := by rw [hrun]
  have hfs1 : (runDocs cenv t docs fs0).1 = fs0 := by rw [hrun]
  have hnonempty : (runDocs cenv t docs fs0).2.1.isEmpty = false := by
    rw [hparts]
    simpa [List.isEmpty_iff] using hne
  have hmerge : merge_pdfs menv (runDocs cenv t docs fs0).2.1 o
      (runDocs cenv t docs fs0).1 =
      (true, fs0.set o (.pdf (docs.flatMap pg))) := by
    unfold merge_pdfs
    rw [hm, hc, hop, hw, hfs1, hparts]
    rw [appendedPages_map_path menv.canAppend fs0 pg docs hfs happ]
    simp
  refine ⟨?_, ?_, ?_, ?_⟩
  · intro docs2 fs2
    rw [(worker_fields cenv menv docs2 t o fs2).1,
      (worker_fields cenv menv docs2 t o fs2).2]
    exact runDocs_parts cenv t docs2 fs2
  · rw [(worker_fields cenv menv docs t o fs0).2]
    exact houts
  · rw [worker_eq cenv menv docs t o fs0 hne, if_neg (by rw [hnonempty]; simp),
      hmerge]
  · rw [worker_eq cenv menv docs t o fs0 hne, if_neg (by rw [hnonempty]; simp),
      hmerge]
    exact FS.get_set_self fs0 o _

/-- Claim C2, witness: two PDF documents merged in input order. -/
theorem merge_preserves_input_order_witness :
    (∀ (docs2 : List SrcPath) (fs2 : FS),
      (worker cenvTriv menvAllOk docs2 "/tmp/" "out" fs2).parts =
        ((worker cenvTriv menvAllOk docs2 "/tmp/" "out" fs2).outcomes).filterMap
          mergedPath)
    ∧ (worker cenvTriv menvAllOk [docA, docB] "/tmp/" "out" fsW).outcomes =
        [docA, docB].map (fun d => Outcome.merged d.path)
    ∧ (worker cenvTriv menvAllOk [docA, docB] "/tmp/" "out" fsW).result =
        .success "out"
    ∧ ((worker cenvTriv menvAllOk [docA, docB] "/tmp/" "out" fsW).fs).get "out" =
        some (.pdf ([docA, docB].flatMap pgW)) :=
  merge_preserves_input_order cenvTriv menvAllOk [docA, docB] "/tmp/" "out" fsW
    pgW (by decide) (by decide) (by decide) rfl rfl rfl rfl (by decide)

/-- Claim C3: an exception raised by the delegate call of one document is
caught by the loop-level try/except and recorded as the failure log entry
for that document only; the remaining documents are processed exactly as
they would be without it, so the failure never escapes the run. -/
theorem loop_contains_delegate_exception (cenv : ConvEnv) (menv : MergeEnv)
    (docs : List SrcPath) (t o : String) (fs0 : FS) (i : Nat) (d : SrcPath)
    (hget : docs[i]? = some d)
    (hcat : lowerStr d.ext ∈ TXT_EXTS ∨ lowerStr d.ext ∈ IMAGE_EXTS ∨
      lowerStr d.ext ∈ WORD_EXTS)
    (hr : cenv.raises d = true) :
    ((worker cenv menv docs t o fs0).outcomes)[i]? = some .failed
    ∧ (worker cenv menv docs t o fs0).outcomes.length = docs.length
    ∧ (worker cenv menv docs t o fs0).outcomes =
        insertOutcome i .failed
          ((worker cenv menv (docs.eraseIdx i) t o fs0).outcomes)
    ∧ (worker cenv menv docs t o fs0).parts =
        (worker cenv menv (docs.eraseIdx i) t o fs0).parts := by
  have hi : i < docs.length := by
    by_contra hge
    rw [List.getElem?_eq_none (by omega)] at hget
    cases hget
  have herase := runDocs_erase cenv t docs i d fs0 hget hr hcat
  have hw1 := worker_fields cenv menv docs t o fs0
  have hw2 := worker_fields cenv menv (docs.eraseIdx i) t o fs0
  have hlen := runDocs_outcomes_length cenv t (docs.eraseIdx i) fs0
  have hlenE : (docs.eraseIdx i).length = docs.length - 1 := by
    rw [List.length_eraseIdx]
    simp [hi]
  refine ⟨?_, ?_, ?_, ?_⟩
  · rw [hw1.2, herase.2.2]
    exact insertOutcome_get .failed i _ (by omega)
  · rw [hw1.2]
    exact runDocs_outcomes_length cenv t docs fs0
  · rw [hw1.2, hw2.2, herase.2.2]
  · rw [hw1.1, hw2.1, herase.2.1]

/-- Claim C3, witness: a raising text document among two PDFs. -/
theorem loop_contains_delegate_exception_witness :
    ((worker cenvRaise menvAllOk [docA, docT1, docB] "/tmp/" "out"
        fsW).outcomes)[1]? = some .failed
    ∧ (worker cenvRaise menvAllOk [docA, docT1, docB] "/tmp/" "out"
        fsW).outcomes.length = ([docA, docT1, docB] : List SrcPath).length
    ∧ (worker cenvRaise menvAllOk [docA, docT1, docB] "/tmp/" "out"
        fsW).outcomes =
        insertOutcome 1 .failed
          ((worker cenvRaise menvAllOk ([docA, docT1, docB].eraseIdx 1) "/tmp/"
            "out" fsW).outcomes)
    ∧ (worker cenvRaise menvAllOk [docA, docT1, docB] "/tmp/" "out" fsW).parts =
        (worker cenvRaise menvAllOk ([docA, docT1, docB].eraseIdx 1) "/tmp/"
          "out" fsW).parts :=
  loop_contains_delegate_exception cenvRaise menvAllOk [docA, docT1, docB]
    "/tmp/" "out" fsW 1 docT1 (by decide) (by decide) rfl

/-- Claim C4: a run on an empty filtered list returns NoInput at once: the
temporary directory is never created, the file system (and so the output
path) is untouched, and no document is processed. -/
theorem empty_input_returns_noInput (cenv : ConvEnv) (menv : MergeEnv)
    (t o : String) (fs0 : FS) :
    worker cenv menv [] t o fs0 = ⟨.noInput, false, fs0, [], []⟩ := rfl

/-- Claim C5, counterexample.  When the reportlab attempt of
_image_to_pdf fails after leaving a partial file and no fallback is
available, the partial temporary output is NOT deleted (the function has
no unlink), and the returned value is the same None that the
tool-unavailable case returns, not a typed Failed outcome. -/
theorem renderer_no_cleanup_cex :
    image_to_pdf imgEnvFail ⟨"a/", "pic", ".png"⟩ "/tmp/" [] =
      (none, [("/tmp/pic_img.pdf", .truncated)])
    ∧ (image_to_pdf imgEnvNoTools ⟨"a/", "pic", ".png"⟩ "/tmp/" []).1 = none := by
  decide

/-- Claim C5 (amended): unexpected errors in either renderer are caught
and surface as a None return, which is the very value the
tool-unavailable case returns (no typed Failed distinct from
ToolUnavailable); the text renderer deletes any file at its output path
on failure (provided the best-effort unlink itself succeeds), but the
image renderer leaves a partial file from a failed reportlab attempt in
place. -/
theorem renderer_error_containment (etxt : TxtEnv) (eimg : ImgEnv)
    (d : SrcPath) (t : String) (lines : List String) (fs : FS)
    (htA : etxt.reportlab = true) (htF : etxt.fails = true)
    (htU : etxt.unlinkOk = true)
    (hiA : eimg.reportlab = true) (hiF : eimg.rlFails = true)
    (hiL : eimg.rlLeavesFile = true) (hiP : eimg.pil = false) :
    (txt_to_pdf etxt d t lines fs).1 = none
    ∧ ((txt_to_pdf etxt d t lines fs).2).get (tmpNameTxt t d) = none
    ∧ (txt_to_pdf { etxt with reportlab := false } d t lines fs).1 = none
    ∧ (image_to_pdf eimg d t fs).1 = none
    ∧ (image_to_pdf { eimg with reportlab := false, pil := false } d t fs).1 =
        none
    ∧ ((image_to_pdf eimg d t fs).2).get (tmpNameImg t d) = some .truncated := by
  obtain ⟨rl, fl, lv, ul⟩ := etxt
  obtain ⟨irl, irf, irlv, irp, ip, ipf, iplv, ipp⟩ := eimg
  simp only at htA htF htU hiA hiF hiL hiP
  subst htA htF htU hiA hiF hiL hiP
  refine ⟨?_, ?_, ?_, ?_, ?_, ?_⟩
  · simp [txt_to_pdf]
  · unfold txt_to_pdf
    cases lv
    · cases hfo : FS.get fs (tmpNameTxt t d) <;>
        simp [hfo, FS.get_erase_self]
    · simp [FS.get_set_self, FS.get_erase_self]
  · simp [txt_to_pdf]
  · simp [image_to_pdf]
  · simp [image_to_pdf]
  · simp [image_to_pdf, FS.get_set_self]

/-- Claim C5, witness for the amended theorem. -/
theorem renderer_error_containment_witness :
    (txt_to_pdf ⟨true, true, false, true⟩ docT1 "/tmp/" [] fsW).1 = none
    ∧ ((txt_to_pdf ⟨true, true, false, true⟩ docT1 "/tmp/" [] fsW).2).get
        (tmpNameTxt "/tmp/" docT1) = none
    ∧ (txt_to_pdf { (⟨true, true, false, true⟩ : TxtEnv) with
        reportlab := false } docT1 "/tmp/" [] fsW).1 = none
    ∧ (image_to_pdf imgEnvFail docT1 "/tmp/" fsW).1 = none
    ∧ (image_to_pdf { imgEnvFail with reportlab := false, pil := false } docT1
        "/tmp/" fsW).1 = none
    ∧ ((image_to_pdf imgEnvFail docT1 "/tmp/" fsW).2).get
        (tmpNameImg "/tmp/" docT1) = some .truncated :=
  renderer_error_containment ⟨true, true, false, true⟩ imgEnvFail docT1 "/tmp/"
    [] fsW rfl rfl rfl rfl rfl rfl rfl

/-- Claim C6, counterexample.  The engine (soffice) is found, writes the
expected PDF, but the call raises (timeout): the except swallows the
exception without checking for the file, so the conversion reports
failure although a PDF with the expected derived name exists in the
output directory — refuting the unconditional
success-iff-expected-file-exists reading. -/
theorem office_success_iff_cex :
    (office_to_pdf offEnvTimeout ⟨"a/", "doc", ".docx"⟩ "/t/" []).1 = none
    ∧ ((office_to_pdf offEnvTimeout ⟨"a/", "doc", ".docx"⟩ "/t/" []).2).get
        "/t/doc.pdf" = some (.pdf [[((0 : Int), "x")]]) := by decide

/-- Claim C6 (amended): the office converter tries the headless engine
candidates first and the Windows-only Word bridge second; when the engine
invocation returns, strategy success is judged solely by the existence of
the PDF with the expected derived name, regardless of the reported exit
code; when the invocation raises, the candidate is judged failed without
the file check, even if the file was produced; if every strategy is
unavailable or fails the result is the None that the caller logs as
tool-unavailable, and off Windows the bridge is never consulted. -/
theorem office_two_strategy_protocol (env : OfficeEnv) (d : SrcPath)
    (t : String) (fs : FS) (code : Int)
    (hw : env.which "soffice" = true) (hwl : env.which "libreoffice" = false)
    (hfs : fs.get (tmpNameOffice t d) = none) (hos : env.os ≠ "Windows") :
    (env.runReturns "soffice" = some code →
      ((office_to_pdf env d t fs).1 = some (tmpNameOffice t d) ↔
        env.engineWrites "soffice" = true))
    ∧ (env.runReturns "soffice" = none → env.engineWrites "soffice" = true →
        (office_to_pdf env d t fs).1 = none
        ∧ (((office_to_pdf env d t fs).2).get (tmpNameOffice t d)).isSome =
            true)
    ∧ (∀ env2 : OfficeEnv, (∀ c, env2.which c = false) → env2.os ≠ "Windows" →
        office_to_pdf env2 d t fs = (none, fs))
    ∧ (∀ (b1 b2 : Bool) (pgs : List Page),
        office_to_pdf
            { env with comRaises := b1, comWrites := b2, comPages := pgs }
            d t fs = office_to_pdf env d t fs) := by
  refine ⟨?_, ?_, ?_, ?_⟩
  · intro hrun
    unfold office_to_pdf officeCands
    dsimp only
    rw [List.foldl_cons, List.foldl_cons, List.foldl_nil]
    unfold office_cand
    rw [hw]
    cases hew : env.engineWrites "soffice"
    · simp only [hew, if_false, Bool.false_eq_true, hrun, hfs]
      simp [hwl, hos]
    · simp only [hew, hrun]
      simp [FS.get_set_self]
  · intro hrun hwr
    unfold office_to_pdf officeCands
    dsimp only
    rw [List.foldl_cons, List.foldl_cons, List.foldl_nil]
    unfold office_cand
    rw [hw, hwr, hrun]
    simp [hwl, hos, FS.get_set_self]
  · intro env2 hW hos2
    unfold office_to_pdf officeCands
    dsimp only
    rw [List.foldl_cons, List.foldl_cons, List.foldl_nil]
    unfold office_cand
    simp [hW, hos2]
  · intro b1 b2 pgs
    unfold office_to_pdf
    have hcand :
        office_cand
          { env with comRaises := b1, comWrites := b2, comPages := pgs } =
        office_cand env := rfl
    rw [hcand]
    dsimp only
    split
    · rfl
    · rw [if_neg hos, if_neg hos]

/-- Claim C6, witness for the amended theorem. -/
theorem office_two_strategy_protocol_witness :
    (offEnvOk.runReturns "soffice" = some 1 →
      ((office_to_pdf offEnvOk docT1 "/t/" []).1 =
          some (tmpNameOffice "/t/" docT1) ↔
        offEnvOk.engineWrites "soffice" = true))
    ∧ (offEnvOk.runReturns "soffice" = none →
        offEnvOk.engineWrites "soffice" = true →
        (office_to_pdf offEnvOk docT1 "/t/" []).1 = none
        ∧ (((office_to_pdf offEnvOk docT1 "/t/" []).2).get
            (tmpNameOffice "/t/" docT1)).isSome = true)
    ∧ (∀ env2 : OfficeEnv, (∀ c, env2.which c = false) → env2.os ≠ "Windows" →
        office_to_pdf env2 docT1 "/t/" [] = (none, []))
    ∧ (∀ (b1 b2 : Bool) (pgs : List Page),
        office_to_pdf
            { offEnvOk with comRaises := b1, comWrites := b2, comPages := pgs }
            docT1 "/t/" [] = office_to_pdf offEnvOk docT1 "/t/" []) :=
  office_two_strategy_protocol offEnvOk docT1 "/t/" [] 1 (by decide) (by decide)
    rfl (by decide)

/-- Claim C7: a text source whose chunk count overflows the printable
height produces more than one page, and every line of every page is drawn
at or above the bottom margin (when the cursor would cross it, a page
break fires first). -/
theorem txt_overflow_paginates (lines : List String)
    (hov : pageHeightU - 2 * marginU <
      ((txtParts lines).length : Int) * lineHeightU) :
    2 ≤ (txtPdfPages lines).length
    ∧ ∀ pg ∈ txtPdfPages lines, ∀ dr ∈ pg, marginU ≤ dr.1 := by
  have hinv := txtCanv_inv lines
  rw [printableU_eq, lineHeightU_eq] at hov
  have hn : 61 ≤ (txtParts lines).length := by omega
  have hdone : 1 ≤ (txtCanvFinal lines).done.length := by
    rw [hinv.hdone]
    omega
  constructor
  · rw [txtPdfPages_length]
    omega
  · intro pg hpg
    rcases List.mem_append.1 hpg with h | h
    · exact hinv.hdoneM pg h
    · rcases List.mem_singleton.1 h with rfl
      exact hinv.hcurM

/-- Claim C7, witness: 61 one-chunk lines overflow one page. -/
theorem txt_overflow_paginates_witness :
    2 ≤ (txtPdfPages (List.replicate 61 "a")).length
    ∧ ∀ pg ∈ txtPdfPages (List.replicate 61 "a"), ∀ dr ∈ pg, marginU ≤ dr.1 :=
  txt_overflow_paginates (List.replicate 61 "a") (by decide)

/-- Claim C8: a text source whose chunks fit within the printable height
of one page (the empty file included) renders to exactly one PDF page; in
general the renderer always emits at least one page, and on success the
written temporary PDF holds exactly these pages. -/
theorem txt_fits_single_page (lines : List String)
    (hfit : ((txtParts lines).length : Int) * lineHeightU ≤
      pageHeightU - 2 * marginU) :
    (txtPdfPages lines).length = 1
    ∧ (∀ ls : List String, 1 ≤ (txtPdfPages ls).length)
    ∧ (∀ (env : TxtEnv) (d : SrcPath) (t2 : String) (fs : FS),
        env.reportlab = true → env.fails = false →
        txt_to_pdf env d t2 lines fs =
          (some (tmpNameTxt t2 d),
           fs.set (tmpNameTxt t2 d) (.pdf (txtPdfPages lines)))) := by
  have hinv := txtCanv_inv lines
  rw [printableU_eq, lineHeightU_eq] at hfit
  have hn : (txtParts lines).length ≤ 60 := by omega
  refine ⟨?_, ?_, ?_⟩
  · rw [txtPdfPages_length, hinv.hdone]
    omega
  · intro ls
    rw [txtPdfPages_length]
    omega
  · intro env d t2 fs h1 h2
    exact txt_to_pdf_ok env d t2 lines fs h1 h2

/-- Claim C8, witness: the empty file renders to one (blank) page. -/
theorem txt_fits_single_page_witness :
    (txtPdfPages []).length = 1
    ∧ (∀ ls : List String, 1 ≤ (txtPdfPages ls).length)
    ∧ (∀ (env : TxtEnv) (d : SrcPath) (t2 : String) (fs : FS),
        env.reportlab = true → env.fails = false →
        txt_to_pdf env d t2 [] fs =
          (some (tmpNameTxt t2 d),
           fs.set (tmpNameTxt t2 d) (.pdf (txtPdfPages [])))) :=
  txt_fits_single_page [] (by decide)

/-- Claim C9: with a merge library present and a non-empty merge list,
the merge call reports success and the job reports Success naming the
output path even when every individual append is rejected; the written
output then holds zero appended pages, and nothing in the job result
distinguishes this from a full merge. -/
theorem merge_vacuous_success (cenv : ConvEnv) (menv : MergeEnv)
    (docs : List SrcPath) (t o : String) (fs0 : FS)
    (hne : docs ≠ [])
    (hpdf : ∀ d ∈ docs, lowerStr d.ext ∈ PDF_EXTS)
    (hm : menv.hasMerger = true) (hc : menv.ctorOk = true)
    (hop : menv.openOk = true) (hw : menv.writeOk = true)
    (hfail : ∀ p, menv.canAppend p = false) :
    (merge_pdfs menv (docs.map SrcPath.path) o fs0).1 = true
    ∧ (worker cenv menv docs t o fs0).result = .success o
    ∧ ((worker cenv menv docs t o fs0).fs).get o = some (.pdf []) := by
  have hrun := runDocs_all_pdf cenv t docs fs0 hpdf
  have hparts : (runDocs cenv t docs fs0).2.1 = docs.map SrcPath.path := by
    rw [hrun]
  have hfs1 : (runDocs cenv t docs fs0).1 = fs0 := by rw [hrun]
  have hnonempty : (runDocs cenv t docs fs0).2.1.isEmpty = false := by
    rw [hparts]
    simpa [List.isEmpty_iff] using hne
  have happ0 : ∀ (fs : FS) (paths : List String),
      appendedPages menv.canAppend fs paths = [] :=
    fun fs paths => appendedPages_none menv.canAppend fs paths
      (fun p _ => hfail p)
  have hmerge : ∀ (paths : List String) (fs : FS),
      merge_pdfs menv paths o fs = (true, fs.set o (.pdf [])) := by
    intro paths fs
    unfold merge_pdfs
    rw [hm, hc, hop, hw, happ0]
    simp
  refine ⟨by rw [hmerge], ?_, ?_⟩
  · rw [worker_eq cenv menv docs t o fs0 hne,
      if_neg (by rw [hnonempty]; simp), hmerge]
  · rw [worker_eq cenv menv docs t o fs0 hne,
      if_neg (by rw [hnonempty]; simp), hmerge]
    exact FS.get_set_self _ o _

/-- Claim C9, witness: one valid-looking PDF whose append is rejected. -/
theorem merge_vacuous_success_witness :
    (merge_pdfs menvNoAppend ([docA].map SrcPath.path) "out" fsW).1 = true
    ∧ (worker cenvTriv menvNoAppend [docA] "/tmp/" "out" fsW).result =
        .success "out"
    ∧ ((worker cenvTriv menvNoAppend [docA] "/tmp/" "out" fsW).fs).get "out" =
        some (.pdf []) :=
  merge_vacuous_success cenvTriv menvNoAppend [docA] "/tmp/" "out" fsW
    (by decide) (by decide) rfl rfl rfl rfl (fun p => rfl)

/-- Claim C10: the temporary PDF name is derived solely from the source
stem plus the per-category suffix inside the shared work directory, so
two distinct text sources with equal stems collide on one temporary path;
the later conversion overwrites the earlier file, and the merged output
carries the later file's pages at both positions. -/
theorem stem_collision_overwrites (cenv : ConvEnv) (menv : MergeEnv)
    (d1 d2 : SrcPath) (t o : String) (fs0 : FS)
    (_hd : d1.path ≠ d2.path) (hstem : d1.stem = d2.stem)
    (he1 : d1.ext = ".txt") (he2 : d2.ext = ".txt")
    (hr1 : cenv.raises d1 = false) (hr2 : cenv.raises d2 = false)
    (ha1 : (cenv.txtEnv d1).reportlab = true)
    (hf1 : (cenv.txtEnv d1).fails = false)
    (ha2 : (cenv.txtEnv d2).reportlab = true)
    (hf2 : (cenv.txtEnv d2).fails = false)
    (hm : menv.hasMerger = true) (hc : menv.ctorOk = true)
    (hop : menv.openOk = true) (hw : menv.writeOk = true)
    (happ : menv.canAppend (tmpNameTxt t d2) = true) :
    tmpNameTxt t d1 = tmpNameTxt t d2
    ∧ (worker cenv menv [d1, d2] t o fs0).parts =
        [tmpNameTxt t d2, tmpNameTxt t d2]
    ∧ ((runDocs cenv t [d1, d2] fs0).1).get (tmpNameTxt t d2) =
        some (.pdf (txtPdfPages (cenv.lines d2)))
    ∧ (worker cenv menv [d1, d2] t o fs0).result = .success o
    ∧ ((worker cenv menv [d1, d2] t o fs0).fs).get o =
        some (.pdf (txtPdfPages (cenv.lines d2) ++ txtPdfPages (cenv.lines d2))) := by
  have hname : tmpNameTxt t d1 = tmpNameTxt t d2 := by
    unfold tmpNameTxt
    rw [hstem]
  have hrun : runDocs cenv t [d1, d2] fs0 =
      (((fs0.set (tmpNameTxt t d2) (.pdf (txtPdfPages (cenv.lines d1)))).set
          (tmpNameTxt t d2) (.pdf (txtPdfPages (cenv.lines d2)))),
        [tmpNameTxt t d2, tmpNameTxt t d2],
        [.merged (tmpNameTxt t d2), .merged (tmpNameTxt t d2)]) := by
    simp only [runDocs, convStep_txt_ok cenv t fs0 d1 he1 hr1 ha1 hf1, hname,
      convStep_txt_ok cenv t _ d2 he2 hr2 ha2 hf2]
    rfl
  have hfs2 : ((runDocs cenv t [d1, d2] fs0).1).get (tmpNameTxt t d2) =
      some (.pdf (txtPdfPages (cenv.lines d2))) := by
    rw [hrun]
    exact FS.get_set_self _ _ _
  have hne : ([d1, d2] : List SrcPath) ≠ [] := by simp
  have hnonempty : (runDocs cenv t [d1, d2] fs0).2.1.isEmpty = false := by
    rw [hrun]
    rfl
  have hmerge : merge_pdfs menv (runDocs cenv t [d1, d2] fs0).2.1 o
      (runDocs cenv t [d1, d2] fs0).1 =
      (true, ((runDocs cenv t [d1, d2] fs0).1).set o
        (.pdf (txtPdfPages (cenv.lines d2) ++ txtPdfPages (cenv.lines d2)))) := by
    unfold merge_pdfs
    rw [hm, hc, hop, hw]
    have hap : appendedPages menv.canAppend (runDocs cenv t [d1, d2] fs0).1
        (runDocs cenv t [d1, d2] fs0).2.1 =
        txtPdfPages (cenv.lines d2) ++ txtPdfPages (cenv.lines d2) := by
      conv_lhs => rw [show (runDocs cenv t [d1, d2] fs0).2.1 =
        [tmpNameTxt t d2, tmpNameTxt t d2] from by rw [hrun]]
      simp only [appendedPages, List.flatMap_cons, List.flatMap_nil]
      rw [hfs2, happ]
      simp
    rw [hap]
    simp
  refine ⟨hname, ?_, hfs2, ?_, ?_⟩
  · rw [(worker_fields cenv menv [d1, d2] t o fs0).1, hrun]
  · rw [worker_eq cenv menv [d1, d2] t o fs0 hne,
      if_neg (by rw [hnonempty]; simp), hmerge]
  · rw [worker_eq cenv menv [d1, d2] t o fs0 hne,
      if_neg (by rw [hnonempty]; simp), hmerge]
    exact FS.get_set_self _ o _

/-- Claim C10, witness: two text files named doc.txt in different
directories; the merged output holds the second file's page twice. -/
theorem stem_collision_overwrites_witness :
    tmpNameTxt "/w/" docT1 = tmpNameTxt "/w/" docT2
    ∧ (worker cenvStem menvAllOk [docT1, docT2] "/w/" "out" []).parts =
        [tmpNameTxt "/w/" docT2, tmpNameTxt "/w/" docT2]
    ∧ ((runDocs cenvStem "/w/" [docT1, docT2] []).1).get
        (tmpNameTxt "/w/" docT2) =
        some (.pdf (txtPdfPages (cenvStem.lines docT2)))
    ∧ (worker cenvStem menvAllOk [docT1, docT2] "/w/" "out" []).result =
        .success "out"
    ∧ ((worker cenvStem menvAllOk [docT1, docT2] "/w/" "out" []).fs).get "out" =
        some (.pdf (txtPdfPages (cenvStem.lines docT2) ++
          txtPdfPages (cenvStem.lines docT2))) :=
  stem_collision_overwrites cenvStem menvAllOk docT1 docT2 "/w/" "out" []
    (by decide) rfl rfl rfl rfl rfl rfl rfl rfl rfl rfl rfl rfl rfl rfl

end DokuReader
